import Mathlib

/-!
Verification of the ranking-snapshot pipeline of the RankingBot repository
(src/main.py), via a shallow embedding in Lean 4.

Python dictionaries with a fixed key set are embedded as structures whose
fields are `Option`-valued (a missing key is `none`); `dict.get(k, d)`
becomes `Option.getD`, and direct indexing `dict[k]` (which raises
`KeyError` for a missing key) makes the embedded function `Except`-valued.
Python integers are `Int`, and the small float arithmetic of the retry
loop (whose constants are exactly representable) is embedded over `ℚ`.
External effects (the HTTP layer, Unicode NFC normalization, file I/O)
are passed in explicitly as function arguments or outcome traces.
-/

namespace RankingBot

/-- Tier ranking table `TIER_ORDER` of src/main.py: a Python dict mapping the
ten tier names to 0..9.  The embedding is `Option`-valued because direct
indexing `TIER_ORDER[t]` raises `KeyError` for an absent key. -/
def TIER_ORDER (t : String) : Option Nat :=
  if t = "IRON" then some 0
  else if t = "BRONZE" then some 1
  else if t = "SILVER" then some 2
  else if t = "GOLD" then some 3
  else if t = "PLATINUM" then some 4
  else if t = "EMERALD" then some 5
  else if t = "DIAMOND" then some 6
  else if t = "MASTER" then some 7
  else if t = "GRANDMASTER" then some 8
  else if t = "CHALLENGER" then some 9
  else none

/-- Division ranking table `DIV_ORDER` of src/main.py. -/
def DIV_ORDER (d : String) : Option Nat :=
  if d = "IV" then some 0
  else if d = "III" then some 1
  else if d = "II" then some 2
  else if d = "I" then some 3
  else none

/-- One rank-entry dict as returned by the ranking service
(fields of interest of src/main.py; a missing key is `none`). -/
structure RankEntry where
  queueType : Option String
  tier : Option String
  rank : Option String
  leaguePoints : Option Int
  wins : Option Int
  losses : Option Int
deriving DecidableEq, Repr

/-- Python truthiness of the entry dict: an empty dict is falsy, so
`if not entry` also fires when every key is absent. -/
def RankEntry.isEmptyDict (e : RankEntry) : Bool :=
  e.queueType.isNone && e.tier.isNone && e.rank.isNone &&
  e.leaguePoints.isNone && e.wins.isNone && e.losses.isNone

/-- The apex-tier membership test `tier in ("MASTER", "GRANDMASTER", "CHALLENGER")`. -/
def isApexTier (t : String) : Bool :=
  t = "MASTER" || t = "GRANDMASTER" || t = "CHALLENGER"

/-- `score_for_sort` of src/main.py (lines 132-140).  `entry.get` calls are
`Option.getD`; the direct indexing `TIER_ORDER[tier]` makes the result
`Except`-valued (a `KeyError` for a tier string outside the table), while
`DIV_ORDER.get(div, 0)` has an explicit fallback and cannot raise. -/
def score_for_sort (entry : Option RankEntry) : Except String Int :=
  match entry with
  | none => Except.ok (-1)
  | some e =>
    if e.isEmptyDict then Except.ok (-1)
    else
      let tier := e.tier.getD "IRON"
      let lp := e.leaguePoints.getD 0
      if isApexTier tier then
        match TIER_ORDER tier with
        | some r => Except.ok ((r : Int) * 4000 + lp)
        | none => Except.error "KeyError"
      else
        match TIER_ORDER tier with
        | some r =>
          Except.ok ((r : Int) * 400 + ((DIV_ORDER (e.rank.getD "IV")).getD 0 : Int) * 100 + lp)
        | none => Except.error "KeyError"

/-- Python `str.title()` on a character list: an alphabetic character is
uppercased after a non-alphabetic position and lowercased otherwise. -/
def pyTitleAux : Bool → List Char → List Char
  | _, [] => []
  | prevAlpha, c :: cs =>
    if c.isAlpha then
      (if prevAlpha then c.toLower else c.toUpper) :: pyTitleAux true cs
    else c :: pyTitleAux false cs

/-- Python `str.title()`. -/
def pyTitle (s : String) : String :=
  String.mk (pyTitleAux false s.data)

/-- `compact_rank` of src/main.py (lines 142-150).  The direct indexing
`entry["tier"]` raises when the key is absent, hence the `Except`; the
ranking tables are never consulted here. -/
def compact_rank (entry : Option RankEntry) : Except String String :=
  match entry with
  | none => Except.ok "*Unranked*"
  | some e =>
    if e.isEmptyDict then Except.ok "*Unranked*"
    else
      match e.tier with
      | none => Except.error "KeyError"
      | some tier =>
        let lp := e.leaguePoints.getD 0
        let w := e.wins.getD 0
        let l := e.losses.getD 0
        if isApexTier tier then
          Except.ok (pyTitle tier ++ " " ++ toString lp ++ " LP (W " ++ toString w ++
            "/L " ++ toString l ++ ")")
        else
          Except.ok (pyTitle tier ++ " " ++ e.rank.getD "IV" ++ " — " ++ toString lp ++
            " LP (W " ++ toString w ++ "/L " ++ toString l ++ ")")

/-- The sort keys of a snapshot, in roster order: Python `sorted` with
`key=lambda kv: score_for_sort(kv[1])` computes the key of every item (left
to right) before comparing, and a `KeyError` raised by any key computation
aborts the sort. -/
def snapshotKeys : List (String × Option RankEntry) → Except String (List Int)
  | [] => Except.ok []
  | kv :: rest =>
    match score_for_sort kv.2 with
    | Except.ok s =>
      match snapshotKeys rest with
      | Except.ok ks => Except.ok (s :: ks)
      | Except.error e => Except.error e
    | Except.error e => Except.error e

/-- Descending comparison of key-decorated snapshot items, as induced by
`reverse=True`: `a` may come before `b` when `b`'s key is at most `a`'s. -/
def descByKey (a b : (String × Option RankEntry) × Int) : Prop :=
  b.2 ≤ a.2

instance (a b : (String × Option RankEntry) × Int) : Decidable (descByKey a b) :=
  inferInstanceAs (Decidable (b.2 ≤ a.2))

/-- `sort_snapshot` of src/main.py (lines 187-188):
`sorted(snap.items(), key=lambda kv: score_for_sort(kv[1]), reverse=True)`.
`snap` is a Python dict, whose `.items()` iterates in insertion order, so the
input list is the roster iteration order.  Python `sorted` is specified as a
stable sort, and with `reverse=True` elements with equal keys still keep
their original relative order; every stable sort computes the same output,
so the embedding decorates the items with their keys and runs the stable
(structurally recursive) `List.insertionSort` on the descending-by-key
relation. -/
def sort_snapshot (snap : List (String × Option RankEntry)) :
    Except String (List (String × Option RankEntry)) :=
  match snapshotKeys snap with
  | Except.ok ks => Except.ok (((snap.zip ks).insertionSort descByKey).map Prod.fst)
  | Except.error e => Except.error e

/-- The sort key of an undecorated snapshot item, totalized with a default
that is never used on items whose score computation succeeds. -/
def scoreD (kv : String × Option RankEntry) : Int :=
  match score_for_sort kv.2 with
  | Except.ok s => s
  | Except.error _ => 0

/-- Descending comparison of undecorated snapshot items by their score. -/
def descByScore (p q : String × Option RankEntry) : Prop :=
  scoreD q ≤ scoreD p

instance (p q : String × Option RankEntry) : Decidable (descByScore p q) :=
  inferInstanceAs (Decidable (scoreD q ≤ scoreD p))

/-- A Python string, as a list of characters (so that slicing, stripping and
splitting are structurally transparent). -/
abbrev PyStr := List Char

/-- Python `str.strip()`: remove leading and trailing whitespace. -/
def pyStrip (s : PyStr) : PyStr :=
  (s.dropWhile Char.isWhitespace).rdropWhile Char.isWhitespace

/-- `sanitize_user_key` of src/main.py (lines 32-33):
`unicodedata.normalize("NFC", s).strip()`.  The NFC normalization is an
external library primitive, passed in explicitly as `nfc`. -/
def sanitize_user_key (nfc : PyStr → PyStr) (s : PyStr) : PyStr :=
  pyStrip (nfc s)

/-- Python `s.split("#", 1)`: the text before the first `'#'`, and — when a
`'#'` occurs — everything after it.  The `Option` is `none` exactly when the
string has no `'#'` (in the source this corresponds to the `"#" in s` test
being false, in which case no split happens). -/
def splitFirstHash : PyStr → PyStr × Option PyStr
  | [] => ([], none)
  | c :: cs =>
    if c = '#' then ([], some cs)
    else
      let p := splitFirstHash cs
      (c :: p.1, p.2)

/-- `split_riot_id` of src/main.py (lines 35-40). -/
def split_riot_id (nfc : PyStr → PyStr) (s : PyStr) : PyStr × Option PyStr :=
  match splitFirstHash (sanitize_user_key nfc s) with
  | (g, some t) => (pyStrip g, some (pyStrip t))
  | (_, none) => (sanitize_user_key nfc s, none)

/-- The JSON object returned by the account-lookup endpoint: `puuid` is
`none` when the key is absent (and a falsy/empty response object behaves
the same way in `resolve_puuid_from_riot_id`, since it also yields no puuid). -/
structure Account where
  puuid : Option PyStr
deriving DecidableEq, Repr

/-- `resolve_puuid_from_riot_id` of src/main.py (lines 213-221).  `net` is
`RiotClient.account_by_riot_id_eu`, the remote account lookup; the second
component of the result is the list of lookup calls made, with the
(game name, tag) arguments placed in the request path of each call.
Python `if not tag` fires both when the split produced no tag (no `'#'`)
and when the tag stripped to the empty string; in both cases the function
returns before any client session is opened, so no network call happens. -/
def resolve_puuid_from_riot_id (nfc : PyStr → PyStr)
    (net : PyStr → PyStr → Option Account) (riot_id : PyStr) :
    Option PyStr × List (PyStr × PyStr) :=
  match split_riot_id nfc riot_id with
  | (_, none) => (none, [])
  | (game, some tag) =>
    if tag = [] then (none, [])
    else
      match net game tag with
      | some acct =>
        match acct.puuid with
        | some p => (some p, [(game, tag)])
        | none => (none, [(game, tag)])
      | none => (none, [(game, tag)])

/-- The observable outcome of one HTTP GET attempt inside
`RiotClient._get` (src/main.py lines 85-111):
a successful JSON body; HTTP 429 with an absent/empty (`none`) or numeric
(`some`) `Retry-After` header; HTTP 429 whose header does not parse as a
float (the `float(...)` call raises, caught by the generic handler);
one of the non-retryable statuses 400/401/403/404; any other error status
(`raise_for_status` raises, caught by the generic handler); a
connector-level failure; or any other exception. -/
inductive HttpOutcome (α : Type) where
  | ok (body : α)
  | rateLimited (retryAfter : Option ℚ)
  | rateLimitedBadHeader
  | clientError (code : Nat)
  | httpError
  | connectorError
  | otherError
deriving DecidableEq, Repr

/-- What a run of `RiotClient._get` did: the returned value (`none` embeds
Python `None`), the durations passed to `asyncio.sleep`, and the number of
HTTP request attempts issued. -/
structure GetResult (α : Type) where
  value : Option α
  sleeps : List ℚ
  attempts : Nat
deriving DecidableEq, Repr

/-- The retry loop of `RiotClient._get`: `i` is the Python loop index and
`fuel` the remaining iterations of `for i in range(tries)`.  On 429 the wait
is the parsed `Retry-After` header if that is present and non-empty,
otherwise `max(1.5 * (i + 1), 2.0)`; after sleeping the loop continues.
Every other branch returns immediately (a successful body, or `None` for
the caught error cases); falling off the loop returns `None`. -/
def riotGetAux {α : Type} (outcomes : Nat → HttpOutcome α) : Nat → Nat → GetResult α
  | _, 0 => ⟨none, [], 0⟩
  | i, fuel + 1 =>
    match outcomes i with
    | HttpOutcome.ok body => ⟨some body, [], 1⟩
    | HttpOutcome.rateLimited retryAfter =>
      let wait :=
        match retryAfter with
        | some w => w
        | none => max ((3 / 2) * ((i : ℚ) + 1)) 2
      let rest := riotGetAux outcomes (i + 1) fuel
      ⟨rest.value, wait :: rest.sleeps, rest.attempts + 1⟩
    | HttpOutcome.rateLimitedBadHeader => ⟨none, [], 1⟩
    | HttpOutcome.clientError _ => ⟨none, [], 1⟩
    | HttpOutcome.httpError => ⟨none, [], 1⟩
    | HttpOutcome.connectorError => ⟨none, [], 1⟩
    | HttpOutcome.otherError => ⟨none, [], 1⟩

/-- `RiotClient._get` of src/main.py, starting at loop index 0 with the
configured attempt bound (`tries`, 2 at every call site). -/
def riotGet {α : Type} (outcomes : Nat → HttpOutcome α) (tries : Nat) : GetResult α :=
  riotGetAux outcomes 0 tries

/-- `RiotClient.league_entries_by_puuid_euw` of src/main.py (lines 114-117):
`data = await self._get(url); return data or []`.  Returns the entry list
together with the underlying `_get` trace. -/
def league_entries_by_puuid_euw (outcomes : Nat → HttpOutcome (List RankEntry)) :
    List RankEntry × GetResult (List RankEntry) :=
  let r := riotGet outcomes 2
  (r.value.getD [], r)

/-- `pick_queue_entry` of src/main.py (lines 129-130): the first entry whose
`queueType` equals the requested queue (`entry.get` of a missing key is
`none`, which never equals the requested queue string). -/
def pick_queue_entry (entries : List RankEntry) (queue : String) : Option RankEntry :=
  entries.find? fun e => decide (e.queueType = some queue)

/-- One roster record `{ riot_id, puuid }` as stored in the players dict
(fields optional, as in any Python dict). -/
structure PlayerCfg where
  riot_id : Option String
  puuid : Option String
deriving DecidableEq, Repr

/-- The outcome of one per-player ranked-entries fetch inside the
`try` of `fetch_snapshot`: a value, or an exception (caught there). -/
inductive FetchOutcome where
  | ok (entries : List RankEntry)
  | exn
deriving DecidableEq, Repr

/-- `fetch_snapshot` of src/main.py (lines 170-185).  The players dict is a
list of (display name, record) pairs in roster iteration order; `fetch`
gives the outcome of `league_entries_by_puuid_euw` for a puuid.  A record
with a missing — or empty, by Python truthiness — puuid is recorded as
`none`; an exception from the fetch is caught and also recorded as `none`;
otherwise the entry matching the requested queue (if any) is recorded. -/
def fetch_snapshot (queue : String) (players : List (String × PlayerCfg))
    (fetch : String → FetchOutcome) : List (String × Option RankEntry) :=
  players.map fun nc =>
    match nc.2.puuid with
    | none => (nc.1, none)
    | some p =>
      if p = "" then (nc.1, none)
      else
        match fetch p with
        | FetchOutcome.ok entries => (nc.1, pick_queue_entry entries queue)
        | FetchOutcome.exn => (nc.1, none)

/-- A fully-populated roster record, as written by `setplayer`. -/
structure PlayerRecord where
  riot_id : String
  puuid : String
deriving DecidableEq, Repr

/-- The roster state seen by `setplayer`: the in-memory `data["players"]`
dict (insertion-ordered key/value pairs) and the content of the persisted
document `data.json`. -/
structure Store where
  players : List (String × PlayerRecord)
  file : List (String × PlayerRecord)
deriving DecidableEq, Repr

/-- Python dict assignment `m[k] = v`: replace in place when the key exists
(keeping its position), append otherwise. -/
def setKey (m : List (String × PlayerRecord)) (k : String) (v : PlayerRecord) :
    List (String × PlayerRecord) :=
  if m.any fun p => decide (p.1 = k) then
    m.map fun p => if p.1 = k then (k, v) else p
  else m ++ [(k, v)]

/-- How a `setplayer` invocation ended. -/
inductive SetPlayerResult where
  | resolutionFailed
  | persistFailed
  | ok
deriving DecidableEq, Repr

/-- The `setplayer` command of src/main.py (lines 240-250).  `resolved` is
the outcome of `resolve_puuid_from_riot_id` on the (already sanitized) riot
id; `writeOk` is whether the `save_data` file write succeeds.  The source
mutates the in-memory dict first and then calls `save_data`, which has no
exception handler: a failing write raises after the in-memory assignment
has happened, and the persisted document is modeled as keeping its prior
content (the most conservative reading — an interrupted
`open(..., "w")`/`json.dump` can also leave it truncated). -/
def setplayer (resolved : Option String) (writeOk : Bool) (st : Store)
    (display_name : String) (riot_id : String) : Store × SetPlayerResult :=
  match resolved with
  | none => (st, SetPlayerResult.resolutionFailed)
  | some puuid =>
    let players2 := setKey st.players display_name ⟨riot_id, puuid⟩
    if writeOk then (⟨players2, players2⟩, SetPlayerResult.ok)
    else (⟨players2, st.file⟩, SetPlayerResult.persistFailed)

theorem TIER_ORDER_le_nine {t : String} {r : Nat} (h : TIER_ORDER t = some r) : r ≤ 9 := by
  unfold TIER_ORDER at h
  split_ifs at h <;> simp_all <;> omega

theorem DIV_ORDER_le_three {d : String} {k : Nat} (h : DIV_ORDER d = some k) : k ≤ 3 := by
  unfold DIV_ORDER at h
  split_ifs at h <;> simp_all <;> omega

theorem DIV_ORDER_getD_le_three (d : String) : (DIV_ORDER d).getD 0 ≤ 3 := by
  cases hd : DIV_ORDER d with
  | none => simp
  | some k => simpa using DIV_ORDER_le_three hd

theorem isApexTier_iff_rank {t : String} {r : Nat} (h : TIER_ORDER t = some r) :
    isApexTier t = true ↔ 7 ≤ r := by
  unfold TIER_ORDER at h
  split_ifs at h <;> simp_all [isApexTier] <;> omega

theorem isEmptyDict_false_of_tier {e : RankEntry} {t : String} (ht : e.tier = some t) :
    e.isEmptyDict = false := by
  simp [RankEntry.isEmptyDict, ht]

theorem score_for_sort_apex {e : RankEntry} {t : String} {r : Nat}
    (ht : e.tier = some t) (hr : TIER_ORDER t = some r) (ha : isApexTier t = true) :
    score_for_sort (some e) = Except.ok ((r : Int) * 4000 + e.leaguePoints.getD 0) := by
  have hne := isEmptyDict_false_of_tier ht
  unfold score_for_sort
  simp [hne, ht, ha, hr]

theorem score_for_sort_nonapex {e : RankEntry} {t : String} {r : Nat}
    (ht : e.tier = some t) (hr : TIER_ORDER t = some r) (ha : isApexTier t = false) :
    score_for_sort (some e) =
      Except.ok ((r : Int) * 400 + ((DIV_ORDER (e.rank.getD "IV")).getD 0 : Int) * 100 +
        e.leaguePoints.getD 0) := by
  have hne := isEmptyDict_false_of_tier ht
  unfold score_for_sort
  simp [hne, ht, ha, hr]

/-- Claim C1, counterexample.  With validity as the claim states it
(non-negative league points, and an upper bound of 100 only for non-apex
tiers), a CHALLENGER entry at 0 LP and a GRANDMASTER entry at 4000 LP are
both valid, CHALLENGER has the strictly higher tier rank (9 over 8), yet
the scores are equal (36000), so `score(a) > score(b)` fails. -/
theorem claim_c1_counterexample :
    TIER_ORDER "CHALLENGER" = some 9 ∧ TIER_ORDER "GRANDMASTER" = some 8 ∧ 8 < 9 ∧
    isApexTier "CHALLENGER" = true ∧ isApexTier "GRANDMASTER" = true ∧
    (0 : Int) ≤ 0 ∧ (0 : Int) ≤ 4000 ∧
    score_for_sort (some ⟨none, some "CHALLENGER", none, some 0, none, none⟩) =
      Except.ok 36000 ∧
    score_for_sort (some ⟨none, some "GRANDMASTER", none, some 4000, none, none⟩) =
      Except.ok 36000 ∧
    ¬ ((36000 : Int) > 36000) := by
  refine ⟨rfl, rfl, by omega, rfl, rfl, by omega, by omega, rfl, rfl, by omega⟩

/-- Claim C1, amended: for valid entries `a`, `b` — tier known, league points
non-negative, below 100 for non-apex tiers AND (the amendment forced by the
counterexample) below 4000 for apex tiers — a strictly higher tier rank gives
a strictly higher score, regardless of the division fields. -/
theorem claim_c1_theorem (a b : RankEntry) (ta tb : String) (ra rb : Nat)
    (hta : a.tier = some ta) (hra : TIER_ORDER ta = some ra)
    (htb : b.tier = some tb) (hrb : TIER_ORDER tb = some rb)
    (ha0 : 0 ≤ a.leaguePoints.getD 0) (hb0 : 0 ≤ b.leaguePoints.getD 0)
    (ha1 : isApexTier ta = false → a.leaguePoints.getD 0 < 100)
    (hb1 : isApexTier tb = false → b.leaguePoints.getD 0 < 100)
    (ha2 : isApexTier ta = true → a.leaguePoints.getD 0 < 4000)
    (hb2 : isApexTier tb = true → b.leaguePoints.getD 0 < 4000)
    (hrank : rb < ra) :
    ∃ sa sb, score_for_sort (some a) = Except.ok sa ∧
      score_for_sort (some b) = Except.ok sb ∧ sb < sa := by
  have hra9 := TIER_ORDER_le_nine hra
  have hrb9 := TIER_ORDER_le_nine hrb
  have hia := isApexTier_iff_rank hra
  have hib := isApexTier_iff_rank hrb
  have hda := DIV_ORDER_getD_le_three (a.rank.getD "IV")
  have hdb := DIV_ORDER_getD_le_three (b.rank.getD "IV")
  rcases Bool.eq_false_or_eq_true (isApexTier ta) with hA | hA <;>
    rcases Bool.eq_false_or_eq_true (isApexTier tb) with hB | hB
  · have h1 := ha2 hA
    have h2 := hb2 hB
    have h3 : 7 ≤ ra := hia.mp hA
    have h4 : 7 ≤ rb := hib.mp hB
    rw [score_for_sort_apex hta hra hA, score_for_sort_apex htb hrb hB]
    exact ⟨_, _, rfl, rfl, by omega⟩
  · have h1 := hb1 hB
    have h3 : 7 ≤ ra := hia.mp hA
    have h4 : ¬ 7 ≤ rb := fun h => by simp [hib.mpr h] at hB
    rw [score_for_sort_apex hta hra hA, score_for_sort_nonapex htb hrb hB]
    exact ⟨_, _, rfl, rfl, by omega⟩
  · exfalso
    have h3 : ¬ 7 ≤ ra := fun h => by simp [hia.mpr h] at hA
    have h4 : 7 ≤ rb := hib.mp hB
    omega
  · have h1 := ha1 hA
    have h2 := hb1 hB
    have h3 : ¬ 7 ≤ ra := fun h => by simp [hia.mpr h] at hA
    have h4 : ¬ 7 ≤ rb := fun h => by simp [hib.mpr h] at hB
    rw [score_for_sort_nonapex hta hra hA, score_for_sort_nonapex htb hrb hB]
    exact ⟨_, _, rfl, rfl, by omega⟩

/-- Claim C1, witness: GOLD II 40 LP strictly outscores SILVER I 99 LP. -/
theorem claim_c1_witness :
    ∃ sa sb,
      score_for_sort (some ⟨none, some "GOLD", some "II", some 40, none, none⟩) =
        Except.ok sa ∧
      score_for_sort (some ⟨none, some "SILVER", some "I", some 99, none, none⟩) =
        Except.ok sb ∧ sb < sa :=
  claim_c1_theorem ⟨none, some "GOLD", some "II", some 40, none, none⟩
    ⟨none, some "SILVER", some "I", some 99, none, none⟩ "GOLD" "SILVER" 3 2
    rfl rfl rfl rfl (by decide) (by decide) (fun _ => by decide) (fun _ => by decide)
    (fun h => by simp [isApexTier] at h) (fun h => by simp [isApexTier] at h)
    (by omega)

/-- Claim C2: the absent sentinel score is `-1`, and every entry with a known
tier and non-negative league points scores strictly above it. -/
theorem claim_c2_theorem (e : RankEntry) (t : String) (r : Nat)
    (ht : e.tier = some t) (hr : TIER_ORDER t = some r)
    (hlp : 0 ≤ e.leaguePoints.getD 0) :
    ∃ s, score_for_sort (some e) = Except.ok s ∧
      score_for_sort none = Except.ok (-1) ∧ -1 < s := by
  rcases Bool.eq_false_or_eq_true (isApexTier t) with ha | ha
  · rw [score_for_sort_apex ht hr ha]
    exact ⟨_, rfl, rfl, by omega⟩
  · rw [score_for_sort_nonapex ht hr ha]
    exact ⟨_, rfl, rfl, by omega⟩

/-- Claim C2, witness: an IRON IV 0 LP entry outscores the absent sentinel. -/
theorem claim_c2_witness :
    ∃ s, score_for_sort (some ⟨none, some "IRON", some "IV", some 0, none, none⟩) =
        Except.ok s ∧
      score_for_sort none = Except.ok (-1) ∧ -1 < s :=
  claim_c2_theorem ⟨none, some "IRON", some "IV", some 0, none, none⟩ "IRON" 0
    rfl rfl (by decide)

/-- Claim C4, counterexample.  An entry whose tier string is outside
`TIER_ORDER` (here `"WOOD"`) does crash the score computation: the direct
indexing `TIER_ORDER[tier]` raises a `KeyError` instead of falling back. -/
theorem claim_c4_counterexample :
    TIER_ORDER "WOOD" = none ∧
    score_for_sort (some ⟨none, some "WOOD", some "IV", some 10, none, none⟩) =
      Except.error "KeyError" := by
  exact ⟨rfl, rfl⟩

/-- Claim C4, amended: an unrecognized division string falls back to the
minimum division-rank contribution 0 (via `DIV_ORDER.get(div, 0)`) without
crashing the score, and label computation never consults the ranking tables
and succeeds for every entry carrying a tier field; but an unrecognized
tier string that is present crashes the score computation with a `KeyError`
(only a missing tier field falls back, to `"IRON"`). -/
theorem claim_c4_theorem (e : RankEntry) (t d : String)
    (ht : e.tier = some t) (hd : e.rank = some d) (hdiv : DIV_ORDER d = none) :
    (∀ r, TIER_ORDER t = some r → isApexTier t = false →
      score_for_sort (some e) = Except.ok ((r : Int) * 400 + e.leaguePoints.getD 0)) ∧
    (TIER_ORDER t = none → score_for_sort (some e) = Except.error "KeyError") ∧
    (∃ s, compact_rank (some e) = Except.ok s) := by
  have hne := isEmptyDict_false_of_tier ht
  refine ⟨?_, ?_, ?_⟩
  · intro r hr ha
    rw [score_for_sort_nonapex ht hr ha]
    simp [hd, hdiv]
  · intro hnone
    have ha : isApexTier t = false := by
      rcases Bool.eq_false_or_eq_true (isApexTier t) with h | h
      · exfalso
        unfold isApexTier at h
        simp only [Bool.or_eq_true, decide_eq_true_eq] at h
        rcases h with (h | h) | h <;> simp [h, TIER_ORDER] at hnone
      · exact h
    unfold score_for_sort
    simp [hne, ht, ha, hnone]
  · unfold compact_rank
    simp only [hne, ht, Bool.false_eq_true, if_false]
    by_cases ha : isApexTier t = true
    · exact ⟨_, if_pos ha⟩
    · exact ⟨_, if_neg ha⟩

/-- Claim C4, witness: tier GOLD with unknown division `"V"` — the score
falls back to division rank 0 and the label is produced. -/
theorem claim_c4_witness :
    (∀ r, TIER_ORDER "GOLD" = some r → isApexTier "GOLD" = false →
      score_for_sort (some ⟨none, some "GOLD", some "V", some 25, none, none⟩) =
        Except.ok ((r : Int) * 400 + 25)) ∧
    (TIER_ORDER "GOLD" = none →
      score_for_sort (some ⟨none, some "GOLD", some "V", some 25, none, none⟩) =
        Except.error "KeyError") ∧
    (∃ s, compact_rank (some ⟨none, some "GOLD", some "V", some 25, none, none⟩) =
      Except.ok s) :=
  claim_c4_theorem ⟨none, some "GOLD", some "V", some 25, none, none⟩ "GOLD" "V"
    rfl rfl rfl

theorem riotGetAux_value {α : Type} (outcomes : Nat → HttpOutcome α) :
    ∀ fuel i, (riotGetAux outcomes i fuel).value = none ∨
      ∃ j b, i ≤ j ∧ j < i + fuel ∧ outcomes j = HttpOutcome.ok b ∧
        (riotGetAux outcomes i fuel).value = some b := by
  intro fuel
  induction fuel with
  | zero => intro i; left; rfl
  | succ n ih =>
    intro i
    cases h : outcomes i with
    | ok body =>
      right
      exact ⟨i, body, le_refl i, by omega, h, by simp [riotGetAux, h]⟩
    | rateLimited ra =>
      rcases ih (i + 1) with hv | ⟨j, b, hj1, hj2, hj3, hj4⟩
      · left
        simp [riotGetAux, h, hv]
      · right
        exact ⟨j, b, by omega, by omega, hj3, by simp [riotGetAux, h, hj4]⟩
    | rateLimitedBadHeader => left; simp [riotGetAux, h]
    | clientError c => left; simp [riotGetAux, h]
    | httpError => left; simp [riotGetAux, h]
    | connectorError => left; simp [riotGetAux, h]
    | otherError => left; simp [riotGetAux, h]

theorem riotGetAux_attempts {α : Type} (outcomes : Nat → HttpOutcome α) :
    ∀ fuel i, (riotGetAux outcomes i fuel).attempts ≤ fuel := by
  intro fuel
  induction fuel with
  | zero => intro i; simp [riotGetAux]
  | succ n ih =>
    intro i
    cases h : outcomes i with
    | ok body => simp [riotGetAux, h]
    | rateLimited ra =>
      have := ih (i + 1)
      simp only [riotGetAux, h]
      omega
    | rateLimitedBadHeader => simp [riotGetAux, h]
    | clientError c => simp [riotGetAux, h]
    | httpError => simp [riotGetAux, h]
    | connectorError => simp [riotGetAux, h]
    | otherError => simp [riotGetAux, h]

/-- Claim C6: whatever the attempt outcomes are — success, non-retryable
status, connection failure, any other caught exception, or a run of 429s
exhausting both attempts — `league_entries_by_puuid_euw` returns a list:
either the body of a successful attempt within the bound of 2, or the empty
list.  (Exceptions from the enumerated outcomes are caught inside `_get`
and embedded as `None`, which `data or []` turns into the empty list, so the
embedded function is total.) -/
theorem claim_c6_theorem (outcomes : Nat → HttpOutcome (List RankEntry)) :
    (league_entries_by_puuid_euw outcomes).1 = [] ∨
    ∃ i, i < 2 ∧ outcomes i = HttpOutcome.ok (league_entries_by_puuid_euw outcomes).1 := by
  unfold league_entries_by_puuid_euw riotGet
  rcases riotGetAux_value outcomes 2 0 with hv | ⟨j, b, hj1, hj2, hj3, hj4⟩
  · left
    simp [hv]
  · right
    refine ⟨j, by omega, ?_⟩
    simp [hj4, hj3]

/-- Claim C7: on a first attempt rate-limited with `Retry-After: 3` the
client sleeps exactly the server-supplied 3 seconds (with a missing header
the fallback is `max(1.5 * 1, 2.0)`), then issues exactly one further
attempt — two attempts in total; if that retry is not a success the call
returns `None`; and for any configured bound the number of attempts never
exceeds it. -/
theorem claim_c7_theorem (outcomes : Nat → HttpOutcome (List RankEntry)) (ra : Option ℚ)
    (h0 : outcomes 0 = HttpOutcome.rateLimited ra) :
    (∀ w, ra = some w → (riotGet outcomes 2).sleeps.head? = some w) ∧
    (ra = none → (riotGet outcomes 2).sleeps.head? = some (max ((3 / 2) * 1) 2)) ∧
    (riotGet outcomes 2).attempts = 2 ∧
    ((∀ b, outcomes 1 ≠ HttpOutcome.ok b) → (riotGet outcomes 2).value = none) ∧
    ∀ tries, (riotGet outcomes tries).attempts ≤ tries := by
  have hrest1 : (riotGetAux outcomes 1 1).attempts = 1 := by
    cases h1 : outcomes 1 <;> simp [riotGetAux, h1]
  refine ⟨?_, ?_, ?_, ?_, ?_⟩
  · intro w hw
    subst hw
    simp [riotGet, riotGetAux, h0]
  · intro hw
    subst hw
    norm_num [riotGet, riotGetAux, h0]
  · simp only [riotGet, riotGetAux, h0]
    cases h1 : outcomes 1 <;> norm_num [h1]
  · intro hfail
    cases h1 : outcomes 1 with
    | ok body => exact absurd h1 (hfail body)
    | rateLimited ra2 => simp [riotGet, riotGetAux, h0, h1]
    | rateLimitedBadHeader => simp [riotGet, riotGetAux, h0, h1]
    | clientError c => simp [riotGet, riotGetAux, h0, h1]
    | httpError => simp [riotGet, riotGetAux, h0, h1]
    | connectorError => simp [riotGet, riotGetAux, h0, h1]
    | otherError => simp [riotGet, riotGetAux, h0, h1]
  · exact fun tries => riotGetAux_attempts outcomes tries 0

/-- Claim C7, witness: first attempt 429 with `Retry-After: 3`, second
attempt a generic failure. -/
theorem claim_c7_witness :
    (∀ w, (some (3 : ℚ)) = some w →
      (riotGet (fun i => if i = 0 then HttpOutcome.rateLimited (some 3)
        else (HttpOutcome.otherError : HttpOutcome (List RankEntry))) 2).sleeps.head? =
        some w) ∧
    ((some (3 : ℚ)) = none →
      (riotGet (fun i => if i = 0 then HttpOutcome.rateLimited (some 3)
        else (HttpOutcome.otherError : HttpOutcome (List RankEntry))) 2).sleeps.head? =
        some (max ((3 / 2) * 1) 2)) ∧
    (riotGet (fun i => if i = 0 then HttpOutcome.rateLimited (some 3)
      else (HttpOutcome.otherError : HttpOutcome (List RankEntry))) 2).attempts = 2 ∧
    ((∀ b, (if 1 = 0 then HttpOutcome.rateLimited (some 3)
        else (HttpOutcome.otherError : HttpOutcome (List RankEntry))) ≠ HttpOutcome.ok b) →
      (riotGet (fun i => if i = 0 then HttpOutcome.rateLimited (some 3)
        else (HttpOutcome.otherError : HttpOutcome (List RankEntry))) 2).value = none) ∧
    ∀ tries, (riotGet (fun i => if i = 0 then HttpOutcome.rateLimited (some 3)
      else (HttpOutcome.otherError : HttpOutcome (List RankEntry))) tries).attempts ≤ tries :=
  claim_c7_theorem
    (fun i => if i = 0 then HttpOutcome.rateLimited (some 3) else HttpOutcome.otherError)
    (some 3) rfl

/-- Claim C9: the snapshot has exactly one row per roster record, with the
same display names in the same order, whatever the per-player outcomes are
(isolation: no failure drops or aborts the rest); a record lacking a cached
puuid (or with an empty one), one whose fetch raises, and one whose entry
list has no entry for the requested queue are all recorded as the absent
entry, which `compact_rank` renders as the explicit unranked marker. -/
theorem claim_c9_theorem (queue : String) (players : List (String × PlayerCfg))
    (fetch : String → FetchOutcome) :
    (fetch_snapshot queue players fetch).map Prod.fst = players.map Prod.fst ∧
    (∀ name cfg, (name, cfg) ∈ players →
      (cfg.puuid = none ∨ cfg.puuid = some "" ∨
        (∀ p, cfg.puuid = some p → fetch p = FetchOutcome.exn) ∨
        (∀ p es, cfg.puuid = some p → fetch p = FetchOutcome.ok es →
          pick_queue_entry es queue = none)) →
      (name, (none : Option RankEntry)) ∈ fetch_snapshot queue players fetch) ∧
    compact_rank none = Except.ok "*Unranked*" := by
  refine ⟨?_, ?_, rfl⟩
  · unfold fetch_snapshot
    rw [List.map_map]
    apply List.map_congr_left
    intro nc _
    simp only [Function.comp_apply]
    cases hp : nc.2.puuid with
    | none => simp [hp]
    | some p =>
      by_cases hpe : p = ""
      · simp [hp, hpe]
      · cases hf : fetch p <;> simp [hp, hpe, hf]
  · intro name cfg hmem hcond
    unfold fetch_snapshot
    apply List.mem_map.mpr
    refine ⟨(name, cfg), hmem, ?_⟩
    rcases hcond with hc | hc | hc | hc
    · simp [hc]
    · simp [hc]
    · cases hp : cfg.puuid with
      | none => simp
      | some p =>
        by_cases hpe : p = ""
        · simp [hp, hpe]
        · simp [hp, hpe, hc p hp]
    · cases hp : cfg.puuid with
      | none => simp
      | some p =>
        by_cases hpe : p = ""
        · simp [hp, hpe]
        · cases hf : fetch p with
          | ok es => simp [hp, hpe, hf, hc p es hp hf]
          | exn => simp [hp, hpe, hf]

/-- Claim C9, witness: a two-player roster where one record has no cached
puuid and the other's fetch raises — both appear, as absent entries. -/
theorem claim_c9_witness :
    (fetch_snapshot "RANKED_SOLO_5x5"
        [("A", PlayerCfg.mk (some "A#1") none), ("B", PlayerCfg.mk (some "B#1") (some "pb"))]
        (fun _ => FetchOutcome.exn)).map Prod.fst = ["A", "B"] ∧
    ("A", (none : Option RankEntry)) ∈ fetch_snapshot "RANKED_SOLO_5x5"
      [("A", PlayerCfg.mk (some "A#1") none), ("B", PlayerCfg.mk (some "B#1") (some "pb"))]
      (fun _ => FetchOutcome.exn) ∧
    ("B", (none : Option RankEntry)) ∈ fetch_snapshot "RANKED_SOLO_5x5"
      [("A", PlayerCfg.mk (some "A#1") none), ("B", PlayerCfg.mk (some "B#1") (some "pb"))]
      (fun _ => FetchOutcome.exn) := by
  obtain ⟨h1, h2, _⟩ := claim_c9_theorem "RANKED_SOLO_5x5"
    [("A", PlayerCfg.mk (some "A#1") none), ("B", PlayerCfg.mk (some "B#1") (some "pb"))]
    (fun _ => FetchOutcome.exn)
  refine ⟨by simpa using h1, ?_, ?_⟩
  · exact h2 "A" (PlayerCfg.mk (some "A#1") none) (by simp) (Or.inl rfl)
  · exact h2 "B" (PlayerCfg.mk (some "B#1") (some "pb")) (by simp)
      (Or.inr (Or.inr (Or.inl fun p _ => rfl)))

theorem setKey_mem (m : List (String × PlayerRecord)) (k : String) (v : PlayerRecord) :
    (k, v) ∈ setKey m k v := by
  unfold setKey
  by_cases h : (m.any fun p => decide (p.1 = k)) = true
  · simp only [h, if_true]
    rw [List.any_eq_true] at h
    obtain ⟨p, hp, hpk⟩ := h
    have hpk2 : p.1 = k := of_decide_eq_true hpk
    apply List.mem_map.mpr
    exact ⟨p, hp, by simp [hpk2]⟩
  · simp [h]

/-- Claim C8, counterexample.  Starting from the empty roster with an empty
persisted document, a successful resolution followed by a failing
persistence write leaves the in-memory roster holding the new record while
the persisted document does not: the state is neither untouched (full
failure) nor consistent in-memory-and-persisted (full success), so the
operation is not atomic. -/
theorem claim_c8_counterexample :
    ¬ ((setplayer (some "p1") false (Store.mk [] []) "Alice" "Alice#EUW").1 =
        Store.mk [] [] ∨
      (setplayer (some "p1") false (Store.mk [] []) "Alice" "Alice#EUW").1.file =
        (setplayer (some "p1") false (Store.mk [] []) "Alice" "Alice#EUW").1.players) := by
  decide

/-- Claim C8, amended: a resolution failure leaves the whole state
untouched; on a successful resolution the record (with the cached stable
id) is always written to the in-memory roster, and when persistence also
succeeds the persisted document equals the in-memory roster (full
success); but a persistence failure leaves the in-memory update in place
with the persisted document unchanged — the two sides diverge, so the
operation is atomic only up to the persistence boundary. -/
theorem claim_c8_theorem (resolved : Option String) (writeOk : Bool) (st : Store)
    (name rid : String) :
    (resolved = none →
      setplayer resolved writeOk st name rid = (st, SetPlayerResult.resolutionFailed)) ∧
    ∀ p, resolved = some p →
      ((name, PlayerRecord.mk rid p) ∈ (setplayer resolved writeOk st name rid).1.players ∧
      (writeOk = true →
        (setplayer resolved writeOk st name rid).1.file =
          (setplayer resolved writeOk st name rid).1.players ∧
        (setplayer resolved writeOk st name rid).2 = SetPlayerResult.ok) ∧
      (writeOk = false →
        (setplayer resolved writeOk st name rid).1.file = st.file ∧
        (setplayer resolved writeOk st name rid).2 = SetPlayerResult.persistFailed)) := by
  constructor
  · intro h
    subst h
    rfl
  · intro p hp
    subst hp
    cases writeOk with
    | false =>
      exact ⟨by simp [setplayer, setKey_mem], fun h => absurd h (by decide),
        fun _ => by simp [setplayer]⟩
    | true =>
      exact ⟨by simp [setplayer, setKey_mem], fun _ => by simp [setplayer],
        fun h => absurd h (by decide)⟩

/-- Claim C8, witness: a fully successful set operation caches the record
and persists the updated roster. -/
theorem claim_c8_witness :
    ("Alice", PlayerRecord.mk "Alice#EUW" "p1") ∈
      (setplayer (some "p1") true (Store.mk [] []) "Alice" "Alice#EUW").1.players ∧
    (setplayer (some "p1") true (Store.mk [] []) "Alice" "Alice#EUW").1.file =
      (setplayer (some "p1") true (Store.mk [] []) "Alice" "Alice#EUW").1.players ∧
    (setplayer (some "p1") true (Store.mk [] []) "Alice" "Alice#EUW").2 =
      SetPlayerResult.ok := by
  obtain ⟨h1, h2⟩ := claim_c8_theorem (some "p1") true (Store.mk [] []) "Alice" "Alice#EUW"
  obtain ⟨hm, hw, hf⟩ := h2 "p1" rfl
  exact ⟨hm, (hw rfl).1, (hw rfl).2⟩

theorem mem_dropWhile_iff_of_neg {α : Type} {p : α → Bool} {c : α} (hc : p c = false) :
    ∀ l : List α, c ∈ l.dropWhile p ↔ c ∈ l := by
  intro l
  induction l with
  | nil => simp
  | cons a as ih =>
    rw [List.dropWhile_cons]
    by_cases ha : p a = true
    · rw [if_pos ha, ih]
      constructor
      · exact fun h => List.mem_cons_of_mem a h
      · intro h
        rcases List.mem_cons.mp h with rfl | h2
        · exact absurd ha (by simp [hc])
        · exact h2
    · rw [if_neg ha]

theorem count_dropWhile_of_neg {α : Type} [DecidableEq α] {p : α → Bool} {c : α}
    (hc : p c = false) : ∀ l : List α, (l.dropWhile p).count c = l.count c := by
  intro l
  induction l with
  | nil => rfl
  | cons a as ih =>
    rw [List.dropWhile_cons]
    by_cases ha : p a = true
    · rw [if_pos ha, ih, List.count_cons]
      have hne : ¬ c = a := fun e => by
        rw [e] at hc
        rw [hc] at ha
        cases ha
      have hne2 : ¬ a = c := fun e => hne e.symm
      simp [hne, hne2]
    · rw [if_neg ha]

theorem mem_pyStrip_iff_of_neg {c : Char} (hc : c.isWhitespace = false) (l : PyStr) :
    c ∈ pyStrip l ↔ c ∈ l := by
  unfold pyStrip
  simp only [List.rdropWhile, List.mem_reverse]
  rw [mem_dropWhile_iff_of_neg hc, List.mem_reverse, mem_dropWhile_iff_of_neg hc]

theorem count_pyStrip_of_neg {c : Char} (hc : c.isWhitespace = false) (l : PyStr) :
    (pyStrip l).count c = l.count c := by
  unfold pyStrip
  simp only [List.rdropWhile]
  rw [List.count_reverse, count_dropWhile_of_neg hc, List.count_reverse,
    count_dropWhile_of_neg hc]

theorem dropWhile_eq_self_of_pre {p : Char → Bool} {m r : PyStr}
    (hpre : r <+: m) (hm : m.dropWhile p = m) : r.dropWhile p = r := by
  obtain ⟨t, rfl⟩ := hpre
  cases r with
  | nil => rfl
  | cons c cs =>
    rw [List.cons_append, List.dropWhile_cons] at hm
    rw [List.dropWhile_cons]
    by_cases hc : p c = true
    · exfalso
      rw [if_pos hc] at hm
      have h1 := congrArg List.length hm
      have h2 := (List.dropWhile_sublist p (l := cs ++ t)).length_le
      simp only [List.length_cons] at h1
      omega
    · rw [if_neg hc]

theorem pyStrip_idem (l : PyStr) : pyStrip (pyStrip l) = pyStrip l := by
  unfold pyStrip
  rw [dropWhile_eq_self_of_pre ( List.rdropWhile_prefix _ _) (List.dropWhile_idempotent _ _)]
  exact List.rdropWhile_idempotent _ _

theorem splitFirstHash_no_hash {l : PyStr} (h : '#' ∉ l) : splitFirstHash l = (l, none) := by
  induction l with
  | nil => rfl
  | cons c cs ih =>
    have hc : ¬ c = '#' := by
      intro e
      subst e
      exact h (List.mem_cons_self _ _)
    have hcs : '#' ∉ cs := fun m => h (List.mem_cons_of_mem c m)
    simp [splitFirstHash, hc, ih hcs]

theorem splitFirstHash_hash {l : PyStr} (h : '#' ∈ l) :
    ∃ g t, splitFirstHash l = (g, some t) ∧ l = g ++ '#' :: t ∧ '#' ∉ g := by
  induction l with
  | nil => cases h
  | cons c cs ih =>
    by_cases hc : c = '#'
    · subst hc
      exact ⟨[], cs, by simp [splitFirstHash], by simp, by simp⟩
    · have hcs : '#' ∈ cs := by
        rcases List.mem_cons.mp h with he | hm
        · exact absurd he.symm hc
        · exact hm
      obtain ⟨g, t, h1, h2, h3⟩ := ih hcs
      refine ⟨c :: g, t, ?_, ?_, ?_⟩
      · simp [splitFirstHash, hc, h1]
      · simp [h2]
      · intro hm
        rcases List.mem_cons.mp hm with he | hm2
        · exact hc he.symm
        · exact h3 hm2

/-- Claim C5: an identity without `'#'` makes `resolve_puuid_from_riot_id`
return `None` without any network call; an identity with `'#'` is split
into a name part and a tag part which are both whitespace-stripped, and any
lookup call that is made carries exactly those stripped parts in its
request path.  The external NFC normalization is only assumed to neither
create nor destroy `'#'` characters. -/
theorem claim_c5_theorem (nfc : PyStr → PyStr)
    (hnfc : ∀ l : PyStr, '#' ∈ nfc l ↔ '#' ∈ l)
    (net : PyStr → PyStr → Option Account) (s : PyStr) :
    ('#' ∉ s → resolve_puuid_from_riot_id nfc net s = (none, [])) ∧
    ('#' ∈ s → ∃ g t, split_riot_id nfc s = (g, some t) ∧
      pyStrip g = g ∧ pyStrip t = t ∧
      ∀ c ∈ (resolve_puuid_from_riot_id nfc net s).2, c = (g, t)) := by
  have hws : ('#' : Char).isWhitespace = false := by decide
  constructor
  · intro h
    have h2 : '#' ∉ sanitize_user_key nfc s := by
      unfold sanitize_user_key
      rw [mem_pyStrip_iff_of_neg hws, hnfc]
      exact h
    have hsplit : split_riot_id nfc s = (sanitize_user_key nfc s, none) := by
      unfold split_riot_id
      rw [splitFirstHash_no_hash h2]
    unfold resolve_puuid_from_riot_id
    rw [hsplit]
  · intro h
    have h2 : '#' ∈ sanitize_user_key nfc s := by
      unfold sanitize_user_key
      rw [mem_pyStrip_iff_of_neg hws, hnfc]
      exact h
    obtain ⟨g, t, h1, _, _⟩ := splitFirstHash_hash h2
    have hsplit : split_riot_id nfc s = (pyStrip g, some (pyStrip t)) := by
      unfold split_riot_id
      rw [h1]
    refine ⟨pyStrip g, pyStrip t, hsplit, pyStrip_idem g, pyStrip_idem t, ?_⟩
    unfold resolve_puuid_from_riot_id
    rw [hsplit]
    by_cases ht : pyStrip t = []
    · simp [ht]
    · cases hn : net (pyStrip g) (pyStrip t) with
      | none => simp [ht, hn]
      | some acct => cases hq : acct.puuid <;> simp [ht, hn, hq]

/-- Claim C5, witness: `"AB"` (no separator) resolves to `None` with no
call; `" A#B "` is split into stripped parts. -/
theorem claim_c5_witness :
    resolve_puuid_from_riot_id id (fun _ _ => none) ['A', 'B'] = (none, []) ∧
    ∃ g t, split_riot_id id [' ', 'A', '#', 'B', ' '] = (g, some t) ∧
      pyStrip g = g ∧ pyStrip t = t ∧
      ∀ c ∈ (resolve_puuid_from_riot_id id (fun _ _ => none) [' ', 'A', '#', 'B', ' ']).2,
        c = (g, t) := by
  constructor
  · exact (claim_c5_theorem id (fun _ => Iff.rfl) (fun _ _ => none) ['A', 'B']).1 (by decide)
  · exact (claim_c5_theorem id (fun _ => Iff.rfl) (fun _ _ => none)
      [' ', 'A', '#', 'B', ' ']).2 (by decide)

/-- Claim C10: an identity with two or more `'#'` characters is split at
the first one only — the name part is the (stripped) text before the first
`'#'` and contains none, the tag part is the (stripped) remainder and
still contains one — and the input is treated as well-formed: resolution
proceeds with exactly one lookup call carrying those parts.  The external
NFC normalization is only assumed to preserve the number of `'#'`
characters. -/
theorem claim_c10_theorem (nfc : PyStr → PyStr)
    (hnfc : ∀ l : PyStr, (nfc l).count '#' = l.count '#')
    (net : PyStr → PyStr → Option Account) (s : PyStr)
    (h2 : 2 ≤ s.count '#') :
    ∃ g t, splitFirstHash (sanitize_user_key nfc s) = (g, some t) ∧
      sanitize_user_key nfc s = g ++ '#' :: t ∧ '#' ∉ g ∧ '#' ∈ t ∧
      split_riot_id nfc s = (pyStrip g, some (pyStrip t)) ∧
      (resolve_puuid_from_riot_id nfc net s).2 = [(pyStrip g, pyStrip t)] := by
  have hws : ('#' : Char).isWhitespace = false := by decide
  have hcnt : (sanitize_user_key nfc s).count '#' = s.count '#' := by
    unfold sanitize_user_key
    rw [count_pyStrip_of_neg hws, hnfc]
  have hmem : '#' ∈ sanitize_user_key nfc s := List.count_pos_iff.mp (by omega)
  obtain ⟨g, t, h1, hgt, hg⟩ := splitFirstHash_hash hmem
  have hcg : g.count '#' = 0 := List.count_eq_zero.mpr hg
  have htmem : '#' ∈ t := by
    have hc2 : (g ++ '#' :: t).count '#' = s.count '#' := by rw [← hgt, hcnt]
    rw [List.count_append, List.count_cons] at hc2
    apply List.count_pos_iff.mp
    simp only [beq_self_eq_true, if_true] at hc2
    omega
  have htne : pyStrip t ≠ [] := by
    intro he
    have hm2 : '#' ∈ pyStrip t := (mem_pyStrip_iff_of_neg hws t).mpr htmem
    rw [he] at hm2
    cases hm2
  have hsplit : split_riot_id nfc s = (pyStrip g, some (pyStrip t)) := by
    unfold split_riot_id
    rw [h1]
  refine ⟨g, t, h1, hgt, hg, htmem, hsplit, ?_⟩
  unfold resolve_puuid_from_riot_id
  rw [hsplit]
  cases hn : net (pyStrip g) (pyStrip t) with
  | none => simp [htne, hn]
  | some acct => cases hq : acct.puuid <;> simp [htne, hn, hq]

/-- Claim C10, witness: `"A#B#C"` splits at the first `'#'` into `"A"` and
`"B#C"` and proceeds to a single lookup call. -/
theorem claim_c10_witness :
    ∃ g t, splitFirstHash (sanitize_user_key id ['A', '#', 'B', '#', 'C']) = (g, some t) ∧
      sanitize_user_key id ['A', '#', 'B', '#', 'C'] = g ++ '#' :: t ∧ '#' ∉ g ∧ '#' ∈ t ∧
      split_riot_id id ['A', '#', 'B', '#', 'C'] = (pyStrip g, some (pyStrip t)) ∧
      (resolve_puuid_from_riot_id id (fun _ _ => none) ['A', '#', 'B', '#', 'C']).2 =
        [(pyStrip g, pyStrip t)] :=
  claim_c10_theorem id (fun _ => rfl) (fun _ _ => none) ['A', '#', 'B', '#', 'C'] (by decide)

theorem scoreD_eq {kv : String × Option RankEntry} {s : Int}
    (h : score_for_sort kv.2 = Except.ok s) : scoreD kv = s := by
  unfold scoreD
  rw [h]

theorem snapshotKeys_spec :
    ∀ {snap : List (String × Option RankEntry)} {ks : List Int},
      snapshotKeys snap = Except.ok ks →
      ks.length = snap.length ∧
      ∀ q ∈ snap.zip ks, score_for_sort q.1.2 = Except.ok q.2 := by
  intro snap
  induction snap with
  | nil =>
    intro ks h
    unfold snapshotKeys at h
    injection h with h
    subst h
    exact ⟨rfl, by simp⟩
  | cons kv rest ih =>
    intro ks h
    unfold snapshotKeys at h
    cases hs : score_for_sort kv.2 with
    | error e =>
      simp only [hs] at h
      exact Except.noConfusion h
    | ok s =>
      simp only [hs] at h
      cases hr : snapshotKeys rest with
      | error e =>
        simp only [hr] at h
        exact Except.noConfusion h
      | ok ks2 =>
        simp only [hr] at h
        injection h with h
        subst h
        obtain ⟨hl, hq⟩ := ih hr
        refine ⟨by simp [hl], ?_⟩
        intro q hqmem
        rw [List.zip_cons_cons] at hqmem
        rcases List.mem_cons.mp hqmem with rfl | hm
        · exact hs
        · exact hq q hm

/-- Claim C3: when sorting succeeds, the output is a permutation of the
snapshot, it is ordered by weakly descending score, and it is stable: any
two items with equal scores that appear in a given order in the roster
iteration appear in the same order in the output.  Determinism is by
construction: `sort_snapshot` is a pure function of the roster-ordered
snapshot, which in turn is determined by the roster and fetched entries. -/
theorem claim_c3_theorem (snap out : List (String × Option RankEntry))
    (h : sort_snapshot snap = Except.ok out) :
    out.Perm snap ∧
    List.Pairwise (fun a b => ∀ sa sb, score_for_sort a.2 = Except.ok sa →
      score_for_sort b.2 = Except.ok sb → sb ≤ sa) out ∧
    ∀ p q sp sq, score_for_sort p.2 = Except.ok sp → score_for_sort q.2 = Except.ok sq →
      sp = sq → [p, q].Sublist snap → [p, q].Sublist out := by
  unfold sort_snapshot at h
  cases hk : snapshotKeys snap with
  | error e =>
    simp only [hk] at h
    exact Except.noConfusion h
  | ok ks =>
    simp only [hk] at h
    injection h with h
    obtain ⟨hlen, hpt⟩ := snapshotKeys_spec hk
    have hmap : ((snap.zip ks).insertionSort descByKey).map Prod.fst =
        ((snap.zip ks).map Prod.fst).insertionSort descByScore := by
      apply List.map_insertionSort
      intro a ha b hb
      unfold descByKey descByScore
      rw [scoreD_eq (hpt a ha), scoreD_eq (hpt b hb)]
    have hfst : (snap.zip ks).map Prod.fst = snap := List.map_fst_zip snap ks (by omega)
    have hout : out = snap.insertionSort descByScore := by
      rw [← h, hmap, hfst]
    haveI : IsTotal (String × Option RankEntry) descByScore :=
      ⟨fun a b => le_total (scoreD b) (scoreD a)⟩
    haveI : IsTrans (String × Option RankEntry) descByScore :=
      ⟨fun _ _ _ hab hbc => le_trans hbc hab⟩
    refine ⟨?_, ?_, ?_⟩
    · rw [hout]
      exact List.perm_insertionSort descByScore snap
    · rw [hout]
      refine List.Pairwise.imp ?_ (List.sorted_insertionSort descByScore snap)
      intro a b hab sa sb hsa hsb
      rw [← scoreD_eq hsa, ← scoreD_eq hsb]
      exact hab
    · intro p q sp sq hsp hsq heq hsub
      rw [hout]
      apply List.pair_sublist_insertionSort
      · unfold descByScore
        rw [scoreD_eq hsq, scoreD_eq hsp, heq]
      · exact hsub

/-- Claim C3, witness: a roster with a score tie — B and D, both GOLD II
40 LP, keep their roster order in the sorted output, below neither and
above the unranked A. -/
theorem claim_c3_witness :
    ([("B", some (RankEntry.mk (some "RANKED_SOLO_5x5") (some "GOLD") (some "II") (some 40)
        none none)),
      ("D", some (RankEntry.mk (some "RANKED_SOLO_5x5") (some "GOLD") (some "II") (some 40)
        none none)),
      ("A", (none : Option RankEntry))].Perm
      [("A", (none : Option RankEntry)),
       ("B", some (RankEntry.mk (some "RANKED_SOLO_5x5") (some "GOLD") (some "II") (some 40)
         none none)),
       ("D", some (RankEntry.mk (some "RANKED_SOLO_5x5") (some "GOLD") (some "II") (some 40)
         none none))]) ∧
    List.Pairwise (fun a b => ∀ sa sb, score_for_sort a.2 = Except.ok sa →
      score_for_sort b.2 = Except.ok sb → sb ≤ sa)
      [("B", some (RankEntry.mk (some "RANKED_SOLO_5x5") (some "GOLD") (some "II") (some 40)
        none none)),
       ("D", some (RankEntry.mk (some "RANKED_SOLO_5x5") (some "GOLD") (some "II") (some 40)
         none none)),
       ("A", (none : Option RankEntry))] ∧
    ∀ p q sp sq, score_for_sort p.2 = Except.ok sp → score_for_sort q.2 = Except.ok sq →
      sp = sq →
      [p, q].Sublist
        [("A", (none : Option RankEntry)),
         ("B", some (RankEntry.mk (some "RANKED_SOLO_5x5") (some "GOLD") (some "II") (some 40)
           none none)),
         ("D", some (RankEntry.mk (some "RANKED_SOLO_5x5") (some "GOLD") (some "II") (some 40)
           none none))] →
      [p, q].Sublist
        [("B", some (RankEntry.mk (some "RANKED_SOLO_5x5") (some "GOLD") (some "II") (some 40)
          none none)),
         ("D", some (RankEntry.mk (some "RANKED_SOLO_5x5") (some "GOLD") (some "II") (some 40)
           none none)),
         ("A", (none : Option RankEntry))] :=
  claim_c3_theorem
    [("A", (none : Option RankEntry)),
     ("B", some (RankEntry.mk (some "RANKED_SOLO_5x5") (some "GOLD") (some "II") (some 40)
       none none)),
     ("D", some (RankEntry.mk (some "RANKED_SOLO_5x5") (some "GOLD") (some "II") (some 40)
       none none))]
    [("B", some (RankEntry.mk (some "RANKED_SOLO_5x5") (some "GOLD") (some "II") (some 40)
      none none)),
     ("D", some (RankEntry.mk (some "RANKED_SOLO_5x5") (some "GOLD") (some "II") (some 40)
       none none)),
     ("A", (none : Option RankEntry))]
    (by rfl)

end RankingBot
